import Mathlib

/-!
Shallow embedding of `listup_precedent` (src/src/main.rs): the era-date
parsers (`parse_date`, `parse_date_era_str`), the detail-page label
dispatcher, record assembly, and the page-count computation, together with
proofs settling the frozen claims about them.

Strings are modelled as `List Char`; Rust's `usize` parsing is modelled with
its overflow bound (`usize` is 64-bit on the targets this tool is built for).
The two fixed regular expressions in `main.rs` are modelled by a small
leftmost-first greedy matcher over their token sequences (character-class
plus-groups and literal characters), mirroring the semantics the `regex`
crate applies to those patterns.
-/

deriving instance DecidableEq for Except

namespace Listup

/-- ASCII digit test: the character class `[0-9]` (and the digits accepted by
Rust's `str::parse::<usize>`). The model restricts `\d` to ASCII digits;
every claim below quantifies only over ASCII-digit inputs. -/
def isAsciiDigit (c : Char) : Bool := 48 ≤ c.toNat && c.toNat ≤ 57

/-- The Unicode `White_Space` code points, which is what Rust's
`str::trim` (via `char::is_whitespace`) strips. -/
def isRustWhitespace (c : Char) : Bool :=
  [0x09, 0x0A, 0x0B, 0x0C, 0x0D, 0x20, 0x85, 0xA0, 0x1680,
   0x2000, 0x2001, 0x2002, 0x2003, 0x2004, 0x2005, 0x2006, 0x2007,
   0x2008, 0x2009, 0x200A, 0x2028, 0x2029, 0x202F, 0x205F, 0x3000].contains c.toNat

/-- Model of Rust `str::trim`: strip leading and trailing whitespace. -/
def rustTrim (s : List Char) : List Char :=
  ((s.dropWhile isRustWhitespace).reverse.dropWhile isRustWhitespace).reverse

/-- `usize::MAX` for the 64-bit targets the tool runs on. -/
def usizeMax : Nat := 2 ^ 64 - 1

/-- Digit-accumulation loop of Rust's `str::parse::<usize>`: consume ASCII
digits, failing on a non-digit or on overflow past `usizeMax`. -/
def parseUsizeDigits : List Char → Nat → Option Nat
  | [], acc => some acc
  | c :: cs, acc =>
    if isAsciiDigit c then
      let acc2 := acc * 10 + (c.toNat - 48)
      if usizeMax < acc2 then none else parseUsizeDigits cs acc2
    else none

/-- Model of Rust `str::parse::<usize>`: an optional leading `+`, then a
non-empty run of ASCII digits, no overflow. -/
def parseUsize (s : List Char) : Option Nat :=
  match s with
  | [] => none
  | c :: rest =>
    if c = '+' then (if rest = [] then none else parseUsizeDigits rest 0)
    else parseUsizeDigits (c :: rest) 0

/-- Numeric value of a digit string (most significant first). -/
def digitsVal (s : List Char) : Nat :=
  s.foldl (fun a c => a * 10 + (c.toNat - 48)) 0

/-! ### A mini matcher for the two fixed regexes

`main.rs` builds exactly two patterns:
`(?P<era>[^0-9]+)(?P<era_year>\d+)年(?P<month>\d+)月(?P<day>\d+)日` and
`(?P<era>[^0-9]+)元年(?P<month>\d+)月(?P<day>\d+)日`, plus `\d+` for the
result count. Each is a concatenation of greedy plus-quantified
single-character classes and literal characters, so we model them by a token
list and a leftmost-first greedy matcher with backtracking, which is the
match semantics the `regex` crate gives these patterns. -/

/-- One token of the fixed patterns: `[^0-9]+`, `\d+`, or a literal char. -/
inductive RTok where
  | nonDigitPlus : RTok
  | digitPlus : RTok
  | lit : Char → RTok
deriving DecidableEq, Repr

/-- Backtracking loop for a greedy plus-group: try consuming `i` characters,
then `i - 1`, ..., down to `1`; `next` matches the remaining tokens. -/
def tryLen (next : List Char → Option (List (List Char))) (xs : List Char) :
    Nat → Option (List (List Char))
  | 0 => none
  | i + 1 =>
    match next (xs.drop (i + 1)) with
    | some caps => some (xs.take (i + 1) :: caps)
    | none => tryLen next xs i

/-- Match a token sequence against a prefix of the input, returning the list
of texts captured by the plus-groups (leftmost-first, greedy). The match is
unanchored at the end: remaining input is ignored. -/
def matchToks : List RTok → List Char → Option (List (List Char))
  | [], _ => some []
  | .lit _ :: _, [] => none
  | .lit c :: ts, x :: xs => if x = c then matchToks ts xs else none
  | .digitPlus :: ts, xs =>
    tryLen (fun ys => matchToks ts ys) xs (xs.takeWhile isAsciiDigit).length
  | .nonDigitPlus :: ts, xs =>
    tryLen (fun ys => matchToks ts ys) xs (xs.takeWhile (fun c => !isAsciiDigit c)).length

/-- `Regex::captures`: find the leftmost starting position at which the
token sequence matches, and return its captures. -/
def findCaptures (toks : List RTok) : List Char → Option (List (List Char))
  | [] => matchToks toks []
  | x :: xs =>
    match matchToks toks (x :: xs) with
    | some caps => some caps
    | none => findCaptures toks xs

/-! ### The date model and the two parsers -/

/-- `japanese_law_xml_schema::law::Era` as used by `main.rs`. The code
matches only `Showa`, `Heisei` and `Reiwa`; the external enum has further
historical variants (the `_ => unreachable!()` arm in `era_to_uri_encode`
shows it is larger), included here for fidelity. -/
inductive Era where
  | Meiji : Era
  | Taisho : Era
  | Showa : Era
  | Heisei : Era
  | Reiwa : Era
deriving DecidableEq, Repr

/-- `jplaw_data_types::law::Date` as pinned down by its construction sites in
`main.rs`: the struct literal at the end of `parse_date_era_str` names
exactly the fields `era`, `year`, `month`, `day`, and stores the
era-relative year in `year` (the query built in `get_reqest` sends
`year` together with the era name, which the court site reads as an
era-relative year). -/
structure Date where
  era : Era
  year : Nat
  month : Option Nat
  day : Option Nat
deriving DecidableEq, Repr

/-- The error kinds raised (as `anyhow` errors) by the modelled code. -/
inductive RunError where
  | parseIntError : RunError
  | dateRangeError : RunError
  | eraTextFormatError : RunError
  | unknownEraError : RunError
deriving DecidableEq, Repr

/-- Modelled from the spec: the era epoch-offset table (`era_base_year`),
which lives in the external `jplaw_data_types` crate, not in this
repository. Per the spec: Showa → 1925, Heisei → 1988, Reiwa → 2018, so that
`gregorian year = era_base_year era + era_year`. The Meiji/Taisho values are
the historical constants; the modelled code never produces them. -/
def era_base_year : Era → Nat
  | .Meiji => 1867
  | .Taisho => 1911
  | .Showa => 1925
  | .Heisei => 1988
  | .Reiwa => 2018

/-- Modelled from the spec: `Date::gen_from_ad` from the external
`jplaw_data_types` crate, whose source is not part of this repository.
Per the spec it computes the comparison key `year*10000 + month*100 + day`,
resolves the era against three closed inclusive ranges (Showa
19261225–19890107, Heisei 19890108–20190430, Reiwa from 20190501), sets the
era-relative year to `year - era_base_year era`, and a key strictly earlier
than Showa's start matches no era (surfacing as the caller's date-range
failure). -/
def gen_from_ad (year month day : Nat) : Option Date :=
  let key := year * 10000 + month * 100 + day
  if 20190501 ≤ key then some ⟨.Reiwa, year - era_base_year .Reiwa, some month, some day⟩
  else if 19890108 ≤ key then some ⟨.Heisei, year - era_base_year .Heisei, some month, some day⟩
  else if 19261225 ≤ key then some ⟨.Showa, year - era_base_year .Showa, some month, some day⟩
  else none

/-- Model of `parse_date` (main.rs:98-122): consume 4 chars for the year,
skip 1, consume 2 for the month, skip 1, consume 2 for the day, parse each
as `usize`, reject `12 < month || 31 < day` with the date-range error, and
build the date through `Date::gen_from_ad`. -/
def parse_date (s : List Char) : Except RunError Date :=
  let year_str := s.take 4
  let s1 := s.drop 4
  match parseUsize year_str with
  | none => .error .parseIntError
  | some year =>
    let s2 := s1.drop 1
    let month_str := s2.take 2
    let s3 := s2.drop 2
    match parseUsize month_str with
    | none => .error .parseIntError
    | some month =>
      let s4 := s3.drop 1
      let day_str := s4.take 2
      match parseUsize day_str with
      | none => .error .parseIntError
      | some day =>
        if 12 < month ∨ 31 < day then .error .dateRangeError
        else
          match gen_from_ad year month day with
          | some d => .ok d
          | none => .error .dateRangeError

/-- The era-name table of `parse_date_era_str`: exactly the three canonical
full-width labels are recognized. -/
def eraOfName (s : List Char) : Option Era :=
  if s = String.toList "昭和" then some .Showa
  else if s = String.toList "平成" then some .Heisei
  else if s = String.toList "令和" then some .Reiwa
  else none

/-- Token sequence of the first regex of `parse_date_era_str`:
`(?P<era>[^0-9]+)(?P<era_year>\d+)年(?P<month>\d+)月(?P<day>\d+)日`. -/
def reToks : List RTok :=
  [.nonDigitPlus, .digitPlus, .lit '年', .digitPlus, .lit '月', .digitPlus, .lit '日']

/-- Token sequence of the second regex of `parse_date_era_str`:
`(?P<era>[^0-9]+)元年(?P<month>\d+)月(?P<day>\d+)日`. -/
def reGanToks : List RTok :=
  [.nonDigitPlus, .lit '元', .lit '年', .digitPlus, .lit '月', .digitPlus, .lit '日']

/-- Shared tail of `parse_date_era_str` after the pattern match: resolve the
era name (else the unknown-era error), then parse month and day as `usize`.
The resulting `Date` stores the era-relative year in `year`. -/
def finish_era_parse (eraS : List Char) (era_year : Nat) (monthS dayS : List Char) :
    Except RunError Date :=
  match eraOfName eraS with
  | none => .error .unknownEraError
  | some era =>
    match parseUsize monthS with
    | none => .error .parseIntError
    | some month =>
      match parseUsize dayS with
      | none => .error .parseIntError
      | some day => .ok ⟨era, era_year, some month, some day⟩

/-- Model of `parse_date_era_str` (main.rs:124-169): try the general pattern
first, parsing the captured era-year as `usize`; only if it matches nowhere
try the `元年` (era-year 1) pattern; if both fail, the format error. The
capture lists always have the group count of their pattern, so the
other-shape arms are unreachable. -/
def parse_date_era_str (s : List Char) : Except RunError Date :=
  match findCaptures reToks s with
  | some [eraS, eraYearS, monthS, dayS] =>
    match parseUsize eraYearS with
    | none => .error .parseIntError
    | some ey => finish_era_parse eraS ey monthS dayS
  | some _ => .error .eraTextFormatError
  | none =>
    match findCaptures reGanToks s with
    | some [eraS, monthS, dayS] => finish_era_parse eraS 1 monthS dayS
    | some _ => .error .eraTextFormatError
    | none => .error .eraTextFormatError

/-! ### Field cleanup helpers -/

/-- Split on `'\n'`, keeping empty segments (the semantics of iterating
Rust's `str::split('\n')`). -/
def splitNl : List Char → List (List Char)
  | [] => [[]]
  | c :: cs =>
    if c = '\n' then [] :: splitNl cs
    else
      match splitNl cs with
      | [] => [[c]]
      | l :: ls => (c :: l) :: ls

/-- Strip one trailing carriage return, as Rust's `str::lines` does on each
terminated line. -/
def stripTrailingCr (l : List Char) : List Char :=
  if l.getLast? = some '\r' then l.dropLast else l

/-- Model of Rust `str::lines`: split on `'\n'`, strip a trailing `'\r'`
from every terminated segment, and drop the final segment when it is empty
(a trailing newline produces no extra line, and the empty string has no
lines). An unterminated final segment keeps any trailing `'\r'`. -/
def rustLines (s : List Char) : List (List Char) :=
  let ps := splitNl s
  (ps.dropLast.map stripTrailingCr) ++
    (match ps.getLast? with
     | some [] => []
     | some l => [l]
     | none => [])

/-- Model of `remove_line_break` (main.rs:192-194):
`str.lines().map(|s| s.trim()).collect::<String>()`. -/
def remove_line_break (s : List Char) : List Char :=
  (rustLines s).map rustTrim |>.flatten

/-! ### The detail-page label dispatcher

One `<dl>` block of the detail page is modelled by an `Item`: the collected
text of its first `dt` node, the collected text of its first `dd > p` node
when one exists, and — for the full-text row — the first `dd > ul > li > a`
anchor (`none` when absent) together with its optional `href` attribute.
A missing node makes the corresponding `.unwrap()` in `main.rs` panic, and a
missing `href` makes the `.expect("a属性はhrefを持っているはず")` panic;
panics are modelled as a distinct abort outcome, separate from the `anyhow`
errors propagated with `?`. -/

/-- One label/value block of a detail page. -/
structure Item where
  dt : List Char
  ddText : Option (List Char)
  anchor : Option (Option (List Char))
deriving DecidableEq, Repr

/-- The two panic sites reachable in the modelled dispatch code. -/
inductive PanicKind where
  | unwrapNone : PanicKind
  | expectHref : PanicKind
deriving DecidableEq, Repr

/-- How a record traversal aborts: an error propagated with `?`, or a
panic. -/
inductive Abort where
  | err : RunError → Abort
  | panicked : PanicKind → Abort
deriving DecidableEq, Repr

/-- The in-progress record of one detail-page traversal
(main.rs:295-312). -/
structure RecordAcc where
  date_str : List Char
  case_number : List Char
  case_name : List Char
  court_name : List Char
  right_type : Option (List Char)
  lawsuit_type : Option (List Char)
  result_type : Option (List Char)
  result : Option (List Char)
  article_info : Option (List Char)
  original_court_name : Option (List Char)
  original_case_number : Option (List Char)
  original_result : Option (List Char)
  original_date : Option Date
  field : Option (List Char)
  gist : Option (List Char)
  case_gist : Option (List Char)
  ref_law : Option (List Char)
  full_pdf_link : List Char
deriving DecidableEq, Repr

/-- The accumulator at the start of a traversal: empty strings and unset
options, as initialized in main.rs:295-312. -/
def initAcc : RecordAcc :=
  { date_str := [], case_number := [], case_name := [], court_name := [],
    right_type := none, lawsuit_type := none, result_type := none,
    result := none, article_info := none, original_court_name := none,
    original_case_number := none, original_result := none,
    original_date := none, field := none, gist := none, case_gist := none,
    ref_law := none, full_pdf_link := [] }

/-- The routing classes of the label match in main.rs:326-552, one per match
arm; or-patterns (synonym labels) share a class, and unknown labels fall
into `other`. -/
inductive LabelKind where
  | caseNumber | caseName | judgmentDate | courtName
  | rightType | lawsuitType | resultType | result
  | articleInfo | originalCourtName | originalCaseNumber | originalResult
  | originalDate | fieldLabel | gist | caseGist | refLaw
  | fullText | other
deriving DecidableEq, Repr

/-- Classify a (trimmed) `dt` label exactly as the `match` in
main.rs:326-552 does, in arm order. -/
def labelKind (l : List Char) : LabelKind :=
  if l = String.toList "事件番号" then .caseNumber
  else if l = String.toList "事件名" then .caseName
  else if l = String.toList "裁判年月日" then .judgmentDate
  else if l = String.toList "裁判所名" ∨ l = String.toList "裁判所名・部" ∨
          l = String.toList "法廷名" then .courtName
  else if l = String.toList "権利種別" then .rightType
  else if l = String.toList "訴訟類型" then .lawsuitType
  else if l = String.toList "裁判種別" then .resultType
  else if l = String.toList "結果" then .result
  else if l = String.toList "判例集等巻・号・頁" ∨
          l = String.toList "高裁判例集登載巻・号・頁" then .articleInfo
  else if l = String.toList "原審裁判所名" then .originalCourtName
  else if l = String.toList "原審事件番号" then .originalCaseNumber
  else if l = String.toList "原審結果" then .originalResult
  else if l = String.toList "原審裁判年月日" then .originalDate
  else if l = String.toList "分野" then .fieldLabel
  else if l = String.toList "判示事項の要旨" ∨ l = String.toList "判示事項" then .gist
  else if l = String.toList "裁判要旨" then .caseGist
  else if l = String.toList "参照法条" then .refLaw
  else if l = String.toList "全文" then .fullText
  else .other

/-- The domain constant prefixed to scraped links (main.rs:87). -/
def courtsDomain : List Char := String.toList "https://www.courts.go.jp"

/-- The `select(dd > p).next().unwrap().text().collect().trim()` step every
text-valued arm performs: panic when the node is absent, otherwise continue
with the trimmed text. -/
def withDdText (it : Item) (k : List Char → Except Abort RecordAcc) :
    Except Abort RecordAcc :=
  match it.ddText with
  | none => .error (.panicked .unwrapNone)
  | some raw => k (rustTrim raw)

/-- The body of each match arm of main.rs:326-552, by routing class:
required text slots are overwritten unconditionally; optional text slots are
set only when the trimmed text is non-empty; the originating-court date is
parsed with `parse_date_era_str` and its failure propagates with `?`; the
full-text arm requires the anchor and its `href` on pain of panic; unknown
labels are logged and ignored. -/
def dispatchKind : LabelKind → RecordAcc → Item → Except Abort RecordAcc
  | .caseNumber, acc, it => withDdText it fun t => .ok { acc with case_number := t }
  | .caseName, acc, it => withDdText it fun t => .ok { acc with case_name := t }
  | .judgmentDate, acc, it => withDdText it fun t => .ok { acc with date_str := t }
  | .courtName, acc, it => withDdText it fun t =>
      .ok { acc with court_name := remove_line_break t }
  | .rightType, acc, it => withDdText it fun t =>
      .ok (if t = [] then acc else { acc with right_type := some t })
  | .lawsuitType, acc, it => withDdText it fun t =>
      .ok (if t = [] then acc else { acc with lawsuit_type := some t })
  | .resultType, acc, it => withDdText it fun t =>
      .ok (if t = [] then acc else { acc with result_type := some t })
  | .result, acc, it => withDdText it fun t =>
      .ok (if t = [] then acc else { acc with result := some t })
  | .articleInfo, acc, it => withDdText it fun t =>
      .ok (if t = [] then acc else { acc with article_info := some t })
  | .originalCourtName, acc, it => withDdText it fun t =>
      .ok (if t = [] then acc else { acc with original_court_name := some t })
  | .originalCaseNumber, acc, it => withDdText it fun t =>
      .ok (if t = [] then acc else { acc with original_case_number := some t })
  | .originalResult, acc, it => withDdText it fun t =>
      .ok (if t = [] then acc else { acc with original_result := some t })
  | .originalDate, acc, it => withDdText it fun t =>
      if t = [] then .ok acc
      else
        match parse_date_era_str t with
        | .error e => .error (.err e)
        | .ok d => .ok { acc with original_date := some d }
  | .fieldLabel, acc, it => withDdText it fun t =>
      .ok (if t = [] then acc else { acc with field := some t })
  | .gist, acc, it => withDdText it fun t =>
      .ok (if t = [] then acc else { acc with gist := some t })
  | .caseGist, acc, it => withDdText it fun t =>
      .ok (if t = [] then acc else { acc with case_gist := some t })
  | .refLaw, acc, it => withDdText it fun t =>
      .ok (if t = [] then acc else { acc with ref_law := some t })
  | .fullText, acc, it =>
      match it.anchor with
      | none => .error (.panicked .unwrapNone)
      | some none => .error (.panicked .expectHref)
      | some (some link) => .ok { acc with full_pdf_link := courtsDomain ++ link }
  | .other, acc, _ => .ok acc

/-- Dispatch one label/value block: trim the `dt` text, classify it, and run
the matching arm (main.rs:318-552). -/
def dispatchStep (acc : RecordAcc) (it : Item) : Except Abort RecordAcc :=
  dispatchKind (labelKind (rustTrim it.dt)) acc it

/-- The traversal loop over all label/value blocks of one detail page, in
document order; the first abort stops the traversal. -/
def dispatch_all : List Item → RecordAcc → Except Abort RecordAcc
  | [], acc => .ok acc
  | it :: rest, acc =>
    match dispatchStep acc it with
    | .ok acc2 => dispatch_all rest acc2
    | .error e => .error e

/-! ### Record assembly -/

/-- `jplaw_data_types::precedent::TrialType`, derived before the traversal
from the digit embedded in the detail-page link. -/
inductive TrialType where
  | SupremeCourt | HighCourt | LowerCourt | AdministrativeCase | LaborCase | IPCase
deriving DecidableEq, Repr

/-- `jplaw_data_types::listup::PrecedentData` as constructed in
main.rs:555-578. -/
structure PrecedentData where
  trial_type : TrialType
  date : Date
  case_number : List Char
  case_name : List Char
  court_name : List Char
  right_type : Option (List Char)
  lawsuit_type : Option (List Char)
  result_type : Option (List Char)
  result : Option (List Char)
  article_info : Option (List Char)
  original_court_name : Option (List Char)
  original_case_number : Option (List Char)
  original_result : Option (List Char)
  original_date : Option Date
  field : Option (List Char)
  gist : Option (List Char)
  case_gist : Option (List Char)
  ref_law : Option (List Char)
  lawsuit_id : List Char
  detail_page_link : List Char
  contents : Option (List Char)
  full_pdf_link : List Char
deriving DecidableEq, Repr

/-- Assembly of one record (main.rs:295-578): run the traversal from the
fresh accumulator, then parse the trimmed primary date string with
`parse_date_era_str` — its failure propagates with `?` — and build the
record from whatever the slots hold. `trial_type`, `lawsuit_id` and
`detail_page_link` are computed before the traversal from the listing link,
and `contents` is the best-effort PDF text fetched over the network, so all
four are parameters here. -/
def assemble (trial_type : TrialType) (lawsuit_id detail_page_link : List Char)
    (contents : Option (List Char)) (items : List Item) :
    Except Abort PrecedentData :=
  match dispatch_all items initAcc with
  | .error e => .error e
  | .ok acc =>
    match parse_date_era_str (rustTrim acc.date_str) with
    | .error e => .error (.err e)
    | .ok date =>
      .ok { trial_type := trial_type, date := date,
            case_number := acc.case_number, case_name := acc.case_name,
            court_name := acc.court_name, right_type := acc.right_type,
            lawsuit_type := acc.lawsuit_type, result_type := acc.result_type,
            result := acc.result, article_info := acc.article_info,
            original_court_name := acc.original_court_name,
            original_case_number := acc.original_case_number,
            original_result := acc.original_result,
            original_date := acc.original_date, field := acc.field,
            gist := acc.gist, case_gist := acc.case_gist,
            ref_law := acc.ref_law, lawsuit_id := lawsuit_id,
            detail_page_link := detail_page_link, contents := contents,
            full_pdf_link := acc.full_pdf_link }

/-! ### Pagination counting -/

/-- Model of main.rs:245-252: extract the leftmost run of digits from the
listing summary text with the regex `\d+` (panicking, like the `.unwrap()`,
when there is none) and parse it as `usize`. -/
def all_quantity_of (s : List Char) : Except Abort Nat :=
  match findCaptures [RTok.digitPlus] s with
  | some [run] =>
    match parseUsize run with
    | none => .error (.err .parseIntError)
    | some n => .ok n
  | some _ => .error (.panicked .unwrapNone)
  | none => .error (.panicked .unwrapNone)

/-- Model of main.rs:247-252: `all_quantity / 10`, plus one when the
division has a remainder. -/
def page_count_of (n : Nat) : Nat :=
  if n % 10 = 0 then n / 10 else n / 10 + 1

/-! ### Lemmas about `usize` parsing of digit strings -/

theorem isAsciiDigit_iff (c : Char) :
    isAsciiDigit c = true ↔ 48 ≤ c.toNat ∧ c.toNat ≤ 57 := by
  simp [isAsciiDigit]

theorem le_foldl_digits :
    ∀ (s : List Char) (acc : Nat),
      acc ≤ s.foldl (fun a c => a * 10 + (c.toNat - 48)) acc
  | [], _ => le_refl _
  | c :: cs, acc =>
    le_trans (by omega) (le_foldl_digits cs (acc * 10 + (c.toNat - 48)))

theorem foldl_digits_lt :
    ∀ (s : List Char) (acc : Nat), (∀ c ∈ s, isAsciiDigit c = true) →
      s.foldl (fun a c => a * 10 + (c.toNat - 48)) acc < (acc + 1) * 10 ^ s.length
  | [], acc, _ => by simp
  | c :: cs, acc, h => by
    have hc : c.toNat - 48 ≤ 9 := by
      have := (isAsciiDigit_iff c).1 (h c (by simp))
      omega
    have ih := foldl_digits_lt cs (acc * 10 + (c.toNat - 48))
      (fun x hx => h x (by simp [hx]))
    calc (c :: cs).foldl (fun a c => a * 10 + (c.toNat - 48)) acc
        = cs.foldl (fun a c => a * 10 + (c.toNat - 48)) (acc * 10 + (c.toNat - 48)) := rfl
      _ < (acc * 10 + (c.toNat - 48) + 1) * 10 ^ cs.length := ih
      _ ≤ ((acc + 1) * 10) * 10 ^ cs.length := by
          apply Nat.mul_le_mul_right
          omega
      _ = (acc + 1) * 10 ^ (cs.length + 1) := by ring
      _ = (acc + 1) * 10 ^ (c :: cs).length := by simp

theorem digitsVal_lt (s : List Char) (h : ∀ c ∈ s, isAsciiDigit c = true) :
    digitsVal s < 10 ^ s.length := by
  simpa [digitsVal] using foldl_digits_lt s 0 h

theorem parseUsizeDigits_eq :
    ∀ (s : List Char) (acc : Nat), (∀ c ∈ s, isAsciiDigit c = true) →
      s.foldl (fun a c => a * 10 + (c.toNat - 48)) acc ≤ usizeMax →
      parseUsizeDigits s acc = some (s.foldl (fun a c => a * 10 + (c.toNat - 48)) acc)
  | [], _, _, _ => rfl
  | c :: cs, acc, h, hle => by
    have hc : isAsciiDigit c = true := h c (by simp)
    have hfold : (c :: cs).foldl (fun a c => a * 10 + (c.toNat - 48)) acc
        = cs.foldl (fun a c => a * 10 + (c.toNat - 48)) (acc * 10 + (c.toNat - 48)) := rfl
    have hstep : acc * 10 + (c.toNat - 48) ≤ usizeMax :=
      le_trans (le_foldl_digits cs (acc * 10 + (c.toNat - 48))) (hfold ▸ hle)
    rw [parseUsizeDigits, if_pos hc, if_neg (by omega : ¬ usizeMax < acc * 10 + (c.toNat - 48))]
    rw [hfold] at hle ⊢
    exact parseUsizeDigits_eq cs _ (fun x hx => h x (by simp [hx])) hle

theorem parseUsize_digits (s : List Char) (hne : s ≠ [])
    (h : ∀ c ∈ s, isAsciiDigit c = true) (hle : digitsVal s ≤ usizeMax) :
    parseUsize s = some (digitsVal s) := by
  cases s with
  | nil => exact absurd rfl hne
  | cons c cs =>
    have hc : isAsciiDigit c = true := h c (by simp)
    have hplus : c ≠ '+' := by
      intro hcp
      rw [hcp] at hc
      exact absurd hc (by decide)
    rw [parseUsize, if_neg hplus]
    exact parseUsizeDigits_eq (c :: cs) 0 h hle

/-! ### Lemmas about the fixed-pattern matcher -/

theorem takeWhile_append_run (p : Char → Bool) (run rest : List Char)
    (hall : ∀ c ∈ run, p c = true)
    (hrest : ∀ r rs, rest = r :: rs → p r = false) :
    (run ++ rest).takeWhile p = run := by
  induction run with
  | nil =>
    cases rest with
    | nil => rfl
    | cons r rs => simp [List.takeWhile_cons, hrest r rs rfl]
  | cons a run ih =>
    have ha : p a = true := hall a (by simp)
    simp [List.takeWhile_cons, ha, ih (fun c hc => hall c (by simp [hc]))]

theorem matchToks_lit_cons (c : Char) (ts : List RTok) (xs : List Char) :
    matchToks (.lit c :: ts) (c :: xs) = matchToks ts xs := by
  simp [matchToks]

theorem matchToks_digitPlus (ts : List RTok) (run rest : List Char)
    (caps : List (List Char)) (hne : run ≠ [])
    (hstop : ((run ++ rest).takeWhile isAsciiDigit) = run)
    (h : matchToks ts rest = some caps) :
    matchToks (.digitPlus :: ts) (run ++ rest) = some (run :: caps) := by
  obtain ⟨n, hn⟩ : ∃ n, run.length = n + 1 := by
    cases run with
    | nil => exact absurd rfl hne
    | cons a l => exact ⟨l.length, rfl⟩
  have hdrop : (run ++ rest).drop (n + 1) = rest := by
    rw [← hn]; exact List.drop_left run rest
  have htake : (run ++ rest).take (n + 1) = run := by
    rw [← hn]; exact List.take_left run rest
  simp only [matchToks, hstop, hn, tryLen, hdrop, h, htake]

theorem matchToks_nonDigitPlus (ts : List RTok) (run rest : List Char)
    (caps : List (List Char)) (hne : run ≠ [])
    (hstop : ((run ++ rest).takeWhile (fun c => !isAsciiDigit c)) = run)
    (h : matchToks ts rest = some caps) :
    matchToks (.nonDigitPlus :: ts) (run ++ rest) = some (run :: caps) := by
  obtain ⟨n, hn⟩ : ∃ n, run.length = n + 1 := by
    cases run with
    | nil => exact absurd rfl hne
    | cons a l => exact ⟨l.length, rfl⟩
  have hdrop : (run ++ rest).drop (n + 1) = rest := by
    rw [← hn]; exact List.drop_left run rest
  have htake : (run ++ rest).take (n + 1) = run := by
    rw [← hn]; exact List.take_left run rest
  simp only [matchToks, hstop, hn, tryLen, hdrop, h, htake]

theorem findCaptures_of_match (toks : List RTok) (l : List Char)
    (caps : List (List Char)) (h : matchToks toks l = some caps) :
    findCaptures toks l = some caps := by
  cases l with
  | nil => rw [findCaptures]; exact h
  | cons x xs => simp [findCaptures, h]

/-- The general era-text pattern matches a string of the shape
`<non-digits><digits>年<digits>月<digits>日` with exactly the four expected
captures. -/
theorem matchToks_reToks (eraS yr mo dy : List Char)
    (heraNe : eraS ≠ []) (heraND : ∀ c ∈ eraS, isAsciiDigit c = false)
    (hyrNe : yr ≠ []) (hyrD : ∀ c ∈ yr, isAsciiDigit c = true)
    (hmoNe : mo ≠ []) (hmoD : ∀ c ∈ mo, isAsciiDigit c = true)
    (hdyNe : dy ≠ []) (hdyD : ∀ c ∈ dy, isAsciiDigit c = true) :
    matchToks reToks (eraS ++ (yr ++ '年' :: (mo ++ '月' :: (dy ++ ['日'])))) =
      some [eraS, yr, mo, dy] := by
  have hday : matchToks [RTok.lit '日'] ['日'] = some [] := by decide
  have hdy : matchToks [RTok.digitPlus, RTok.lit '日'] (dy ++ ['日']) =
      some [dy] :=
    matchToks_digitPlus _ dy ['日'] [] hdyNe
      (takeWhile_append_run _ dy ['日'] hdyD
        (by intro r rs h; cases h; decide)) hday
  have hmoLit : matchToks [RTok.lit '月', RTok.digitPlus, RTok.lit '日']
      ('月' :: (dy ++ ['日'])) = some [dy] := by
    rw [matchToks_lit_cons]; exact hdy
  have hmo2 : matchToks [RTok.digitPlus, RTok.lit '月', RTok.digitPlus, RTok.lit '日']
      (mo ++ '月' :: (dy ++ ['日'])) = some [mo, dy] :=
    matchToks_digitPlus _ mo _ [dy] hmoNe
      (takeWhile_append_run _ mo _ hmoD
        (by intro r rs h; cases h; decide)) hmoLit
  have hyrLit : matchToks [RTok.lit '年', RTok.digitPlus, RTok.lit '月',
      RTok.digitPlus, RTok.lit '日'] ('年' :: (mo ++ '月' :: (dy ++ ['日']))) =
      some [mo, dy] := by
    rw [matchToks_lit_cons]; exact hmo2
  have hyr2 : matchToks [RTok.digitPlus, RTok.lit '年', RTok.digitPlus,
      RTok.lit '月', RTok.digitPlus, RTok.lit '日']
      (yr ++ '年' :: (mo ++ '月' :: (dy ++ ['日']))) = some [yr, mo, dy] :=
    matchToks_digitPlus _ yr _ [mo, dy] hyrNe
      (takeWhile_append_run _ yr _ hyrD
        (by intro r rs h; cases h; decide)) hyrLit
  obtain ⟨y0, yr', rfl⟩ := List.exists_cons_of_ne_nil hyrNe
  exact matchToks_nonDigitPlus _ eraS _ [y0 :: yr', mo, dy] heraNe
    (takeWhile_append_run _ eraS _
      (fun c hc => by simp [heraND c hc])
      (by
        intro r rs h
        rw [List.cons_append] at h
        injection h with h1 _
        subst h1
        simp [hyrD y0 (by simp)]))
    hyr2

theorem eraOfName_cases (s : List Char) (e : Era) (h : eraOfName s = some e) :
    s = String.toList "昭和" ∨ s = String.toList "平成" ∨ s = String.toList "令和" := by
  unfold eraOfName at h
  split_ifs at h with h1 h2 h3
  · exact .inl h1
  · exact .inr (.inl h2)
  · exact .inr (.inr h3)

/-- `parse_date` with the three slices written with absolute offsets: the
year is characters 0–3, the month characters 5–6, the day characters 8–9
(0-based), and characters 4 and 7 and everything from character 10 on are
never inspected. -/
theorem parse_date_eq (s : List Char) :
    parse_date s =
      match parseUsize (s.take 4) with
      | none => .error .parseIntError
      | some year =>
        match parseUsize ((s.drop 5).take 2) with
        | none => .error .parseIntError
        | some month =>
          match parseUsize ((s.drop 8).take 2) with
          | none => .error .parseIntError
          | some day =>
            if 12 < month ∨ 31 < day then .error .dateRangeError
            else
              match gen_from_ad year month day with
              | some d => .ok d
              | none => .error .dateRangeError := by
  unfold parse_date
  simp only [List.drop_drop]

/-! ### Claim C5 -/

/-- Claim C5 (confirmed): whenever the numeric date parser's three slices
parse as year, month and day and the month exceeds 12 or the day exceeds 31,
parsing fails with the date-range error; in particular "2020/13/01" fails;
and the bound is syntactic only — day 31 is accepted for every month value
up to 12 (shown at year 2020). -/
theorem c5_numeric_month_day_bounds :
    (∀ (s : List Char) (y m d : Nat),
      parseUsize (s.take 4) = some y →
      parseUsize ((s.drop 5).take 2) = some m →
      parseUsize ((s.drop 8).take 2) = some d →
      12 < m ∨ 31 < d →
      parse_date s = .error .dateRangeError)
    ∧ parse_date (String.toList "2020/13/01") = .error .dateRangeError
    ∧ (∀ c1 c2 : Char, isAsciiDigit c1 = true → isAsciiDigit c2 = true →
        digitsVal [c1, c2] ≤ 12 →
        parse_date ['2', '0', '2', '0', '/', c1, c2, '/', '3', '1'] =
          .ok ⟨.Reiwa, 2, some (digitsVal [c1, c2]), some 31⟩) := by
  refine ⟨?_, by decide, ?_⟩
  · intro s y m d hy hm hd hr
    rw [parse_date_eq]
    simp only [hy, hm, hd]
    rw [if_pos hr]
  · intro c1 c2 h1 h2 h12
    have hdig : ∀ c ∈ [c1, c2], isAsciiDigit c = true := by
      intro c hc
      rcases List.mem_cons.1 hc with rfl | hc
      · exact h1
      · rcases List.mem_cons.1 hc with rfl | hc
        · exact h2
        · simp at hc
    rw [parse_date_eq]
    have t1 : parseUsize ((['2', '0', '2', '0', '/', c1, c2, '/', '3', '1'] :
        List Char).take 4) = some 2020 := rfl
    have t2 : parseUsize (((['2', '0', '2', '0', '/', c1, c2, '/', '3', '1'] :
        List Char).drop 5).take 2) = some (digitsVal [c1, c2]) := by
      show parseUsize [c1, c2] = some (digitsVal [c1, c2])
      exact parseUsize_digits _ (by simp) hdig (le_trans h12 (by norm_num [usizeMax]))
    have t3 : parseUsize (((['2', '0', '2', '0', '/', c1, c2, '/', '3', '1'] :
        List Char).drop 8).take 2) = some 31 := rfl
    simp only [t1, t2, t3]
    rw [if_neg (by omega : ¬ (12 < digitsVal [c1, c2] ∨ 31 < 31))]
    have t4 : gen_from_ad 2020 (digitsVal [c1, c2]) 31 =
        some ⟨.Reiwa, 2, some (digitsVal [c1, c2]), some 31⟩ := by
      simp only [gen_from_ad]
      rw [if_pos (by omega :
        (20190501 : Nat) ≤ 2020 * 10000 + digitsVal [c1, c2] * 100 + 31)]
      rfl
    simp only [t4]

/-- Witness for C5: the range-error half at a concrete month-99 input, and
the acceptance half at month 05, day 31. -/
theorem c5_witness :
    parse_date (String.toList "2020/99/99") = .error .dateRangeError ∧
    parse_date ['2', '0', '2', '0', '/', '0', '5', '/', '3', '1'] =
      .ok ⟨.Reiwa, 2, some 5, some 31⟩ := by
  constructor
  · exact c5_numeric_month_day_bounds.1 _ 2020 99 99 rfl rfl rfl (by omega)
  · exact c5_numeric_month_day_bounds.2.2 '0' '5' (by decide) (by decide) (by decide)

/-! ### Claim C6 -/

/-- Claim C6 (confirmed): the computed page count equals `⌈n / 10⌉` (which
over `Nat` is `(n + 9) / 10`) for every extracted total `n`, and the summary
"64297件中1～10件を表示" yields total 64297 and page count 6430. -/
theorem c6_page_count :
    (∀ n : Nat, page_count_of n = (n + 9) / 10)
    ∧ all_quantity_of (String.toList "64297件中1～10件を表示") = .ok 64297
    ∧ page_count_of 64297 = 6430 := by
  refine ⟨?_, by decide, by decide⟩
  intro n
  unfold page_count_of
  split_ifs with h <;> omega

/-! ### Claim C9 -/

/-- Claim C9 (confirmed): the free-text era parser performs no range
validation on month or day: every input of the exact shape
`<era-name><digits>年<digits>月<digits>日` with a recognized era name (and
digit runs whose values fit in `usize`) parses successfully to those very
numbers, with no bound on month or day. -/
theorem c9_era_text_no_range_validation
    (eraS yr mo dy : List Char) (era : Era)
    (hera : eraOfName eraS = some era)
    (hyrNe : yr ≠ []) (hyrD : ∀ c ∈ yr, isAsciiDigit c = true)
    (hmoNe : mo ≠ []) (hmoD : ∀ c ∈ mo, isAsciiDigit c = true)
    (hdyNe : dy ≠ []) (hdyD : ∀ c ∈ dy, isAsciiDigit c = true)
    (hyrV : digitsVal yr ≤ usizeMax) (hmoV : digitsVal mo ≤ usizeMax)
    (hdyV : digitsVal dy ≤ usizeMax) :
    parse_date_era_str (eraS ++ (yr ++ '年' :: (mo ++ '月' :: (dy ++ ['日'])))) =
      .ok ⟨era, digitsVal yr, some (digitsVal mo), some (digitsVal dy)⟩ := by
  have hcases := eraOfName_cases eraS era hera
  have heraNe : eraS ≠ [] := by
    rcases hcases with h | h | h <;> subst h <;> decide
  have heraND : ∀ c ∈ eraS, isAsciiDigit c = false := by
    rcases hcases with h | h | h <;> subst h <;> decide
  have hm := matchToks_reToks eraS yr mo dy heraNe heraND hyrNe hyrD hmoNe hmoD hdyNe hdyD
  have hfc := findCaptures_of_match reToks _ _ hm
  unfold parse_date_era_str
  rw [hfc]
  simp only [parseUsize_digits yr hyrNe hyrD hyrV, finish_era_parse, hera,
    parseUsize_digits mo hmoNe hmoD hmoV, parseUsize_digits dy hdyNe hdyD hdyV]

/-- Witness for C9: "令和3年13月99日" parses to month 13, day 99, although no
calendar has them. -/
theorem c9_witness :
    parse_date_era_str (String.toList "令和3年13月99日") =
      .ok ⟨.Reiwa, 3, some 13, some 99⟩ := by
  have h := c9_era_text_no_range_validation (String.toList "令和") ['3'] ['1', '3']
    ['9', '9'] .Reiwa (by decide) (by decide) (by decide) (by decide) (by decide)
    (by decide) (by decide) (by decide) (by decide) (by decide)
  exact h

/-! ### Claim C10 -/

/-- Counterexample to C10 as stated: "0001/01/01" has digits in positions
1–4, 6–7 and 9–10 and an in-range month and day, yet parsing fails, because
the composed date precedes every known era. -/
theorem c10_cex :
    parse_date (String.toList "0001/01/01") = .error .dateRangeError := by decide

/-- Claim C10 (corrected): the numeric date parser never inspects the two
separator positions or anything past the tenth character — but parsing
succeeds only when, additionally, the composed date key falls inside a known
era (at or after Showa's start). With that proviso: for all digit characters
in the year, month and day positions forming an in-range month and day,
parsing succeeds for every choice of the characters at positions 5 and 8 and
of the trailing characters. -/
theorem c10_separators_ignored
    (y1 y2 y3 y4 a m1 m2 b d1 d2 : Char) (rest : List Char)
    (hy : ∀ c ∈ [y1, y2, y3, y4], isAsciiDigit c = true)
    (hm : ∀ c ∈ [m1, m2], isAsciiDigit c = true)
    (hd : ∀ c ∈ [d1, d2], isAsciiDigit c = true)
    (hm12 : digitsVal [m1, m2] ≤ 12) (hd31 : digitsVal [d1, d2] ≤ 31)
    (hkey : 19261225 ≤ digitsVal [y1, y2, y3, y4] * 10000 +
      digitsVal [m1, m2] * 100 + digitsVal [d1, d2]) :
    ∃ dt, parse_date (y1 :: y2 :: y3 :: y4 :: a :: m1 :: m2 :: b :: d1 :: d2 :: rest) =
      Except.ok dt := by
  rw [parse_date_eq]
  have t1 : parseUsize ((y1 :: y2 :: y3 :: y4 :: a :: m1 :: m2 :: b :: d1 :: d2 ::
      rest).take 4) = some (digitsVal [y1, y2, y3, y4]) := by
    show parseUsize [y1, y2, y3, y4] = _
    exact parseUsize_digits _ (by simp) hy
      (le_trans (le_of_lt (digitsVal_lt _ hy)) (by norm_num [usizeMax]))
  have t2 : parseUsize (((y1 :: y2 :: y3 :: y4 :: a :: m1 :: m2 :: b :: d1 :: d2 ::
      rest).drop 5).take 2) = some (digitsVal [m1, m2]) := by
    show parseUsize [m1, m2] = _
    exact parseUsize_digits _ (by simp) hm
      (le_trans (le_of_lt (digitsVal_lt _ hm)) (by norm_num [usizeMax]))
  have t3 : parseUsize (((y1 :: y2 :: y3 :: y4 :: a :: m1 :: m2 :: b :: d1 :: d2 ::
      rest).drop 8).take 2) = some (digitsVal [d1, d2]) := by
    show parseUsize [d1, d2] = _
    exact parseUsize_digits _ (by simp) hd
      (le_trans (le_of_lt (digitsVal_lt _ hd)) (by norm_num [usizeMax]))
  simp only [t1, t2, t3]
  rw [if_neg (by omega : ¬ (12 < digitsVal [m1, m2] ∨ 31 < digitsVal [d1, d2]))]
  obtain ⟨dt, hdt⟩ : ∃ dt, gen_from_ad (digitsVal [y1, y2, y3, y4])
      (digitsVal [m1, m2]) (digitsVal [d1, d2]) = some dt := by
    simp only [gen_from_ad]
    -- the innermost condition is exactly `hkey`, which `split_ifs` uses,
    -- leaving the three in-era branches
    split_ifs with h1 h2
    · exact ⟨_, rfl⟩
    · exact ⟨_, rfl⟩
    · exact ⟨_, rfl⟩
  exact ⟨dt, by rw [hdt]⟩

/-- Witness for C10 (amended): a Reiwa-era date with arbitrary separator
characters and trailing garbage parses. -/
theorem c10_witness :
    ∃ dt, parse_date
      ('2' :: '0' :: '2' :: '2' :: 'x' :: '0' :: '1' :: '?' :: '1' :: '2' ::
        String.toList "TRAILING") = Except.ok dt := by
  exact c10_separators_ignored '2' '0' '2' '2' 'x' '0' '1' '?' '1' '2'
    (String.toList "TRAILING") (by decide) (by decide) (by decide) (by decide)
    (by decide) (by decide)

/-! ### Helper step lemmas for the dispatcher (all definitional) -/

theorem dispatchStep_originalDate (acc : RecordAcc) (t : List Char)
    (anc : Option (Option (List Char))) :
    dispatchStep acc ⟨String.toList "原審裁判年月日", some t, anc⟩ =
      if rustTrim t = [] then .ok acc
      else
        match parse_date_era_str (rustTrim t) with
        | .error e => .error (.err e)
        | .ok d => .ok { acc with original_date := some d } := rfl

theorem dispatchStep_fullText (acc : RecordAcc) (dd : Option (List Char))
    (anc : Option (Option (List Char))) :
    dispatchStep acc ⟨String.toList "全文", dd, anc⟩ =
      match anc with
      | none => .error (.panicked .unwrapNone)
      | some none => .error (.panicked .expectHref)
      | some (some link) => .ok { acc with full_pdf_link := courtsDomain ++ link } := rfl

/-! ### Claim C1 -/

/-- Counterexample to C1 as stated: the parse result of "令和元年5月1日"
carries the era-relative year 1 in its single `year` field and no Gregorian
year at all, so the claimed invariant `year = era_base_year era + era_year`
fails on the stored field: 1 ≠ 2018 + 1. -/
theorem c1_cex :
    parse_date_era_str (String.toList "令和元年5月1日") =
      .ok ⟨.Reiwa, 1, some 5, some 1⟩ ∧
    (1 : Nat) ≠ era_base_year .Reiwa + 1 := ⟨by decide, by decide⟩

/-- Claim C1 (corrected): `parse_date_era_str "令和元年5月1日"` yields era
Reiwa, era-year 1 (the `元年` pattern, stored in the single `year` field),
month 5, day 1; the Gregorian year is not part of the result but is
derivable as `era_base_year Reiwa + 1 = 2019`. -/
theorem c1_era_gannen_parse :
    parse_date_era_str (String.toList "令和元年5月1日") =
      .ok ⟨.Reiwa, 1, some 5, some 1⟩ ∧
    era_base_year .Reiwa + 1 = 2019 := ⟨by decide, by decide⟩

/-! ### Claim C2 -/

/-- Counterexample to C2 as stated: a non-empty originating-court date value
that the era-text parser rejects aborts the dispatch with the propagated
parse error instead of leaving `original_date` unset. -/
theorem c2_cex :
    dispatchStep initAcc
      ⟨String.toList "原審裁判年月日", some (String.toList "不明"), none⟩ =
    .error (.err .eraTextFormatError) := by decide

/-- Claim C2 (corrected): a parse failure of the non-empty originating-court
date aborts the record via the propagated `?` error — exactly like a parse
failure of the primary judgment date after the traversal. -/
theorem c2_original_date_failure_aborts :
    (∀ (acc : RecordAcc) (t : List Char) (anc : Option (Option (List Char)))
      (e : RunError),
      rustTrim t ≠ [] → parse_date_era_str (rustTrim t) = .error e →
      dispatchStep acc ⟨String.toList "原審裁判年月日", some t, anc⟩ =
        .error (.err e))
    ∧ (∀ (tt : TrialType) (lid dl : List Char) (c : Option (List Char))
        (items : List Item) (acc2 : RecordAcc) (e : RunError),
        dispatch_all items initAcc = .ok acc2 →
        parse_date_era_str (rustTrim acc2.date_str) = .error e →
        assemble tt lid dl c items = .error (.err e)) := by
  constructor
  · intro acc t anc e hne hp
    rw [dispatchStep_originalDate, if_neg hne, hp]
  · intro tt lid dl c items acc2 e hall hp
    unfold assemble
    simp only [hall, hp]

/-- Witness for C2 (amended): a kanji-numeral date value aborts the
dispatch with the era-text format error. -/
theorem c2_witness :
    dispatchStep initAcc
      ⟨String.toList "原審裁判年月日", some (String.toList "平成十年一月一日"), none⟩ =
    .error (.err .eraTextFormatError) :=
  c2_original_date_failure_aborts.1 initAcc (String.toList "平成十年一月一日") none
    .eraTextFormatError (by decide) (by decide)

/-! ### Claim C3 -/

/-- Counterexample to C3 as stated: a traversal that populates nothing but
the judgment date assembles successfully into a record whose required
text fields (case number, case name, court name, full-text link) are all
empty — there is no final validation pass and no incomplete-record error. -/
theorem c3_cex :
    assemble .SupremeCourt (String.toList "id") (String.toList "lnk") none
      [⟨String.toList "裁判年月日", some (String.toList "令和3年5月1日"), none⟩] =
    .ok { trial_type := .SupremeCourt, date := ⟨.Reiwa, 3, some 5, some 1⟩,
          case_number := [], case_name := [], court_name := [],
          right_type := none, lawsuit_type := none, result_type := none,
          result := none, article_info := none, original_court_name := none,
          original_case_number := none, original_result := none,
          original_date := none, field := none, gist := none,
          case_gist := none, ref_law := none, lawsuit_id := String.toList "id",
          detail_page_link := String.toList "lnk", contents := none,
          full_pdf_link := [] } := by decide

/-- Claim C3 (corrected): after a successful traversal the only assembly
check is the primary-date parse: assembly emits a record exactly when the
accumulated date string parses, regardless of whether any other field was
ever populated. -/
theorem c3_no_final_validation :
    ∀ (tt : TrialType) (lid dl : List Char) (c : Option (List Char))
      (items : List Item) (acc2 : RecordAcc),
      dispatch_all items initAcc = .ok acc2 →
      ((∃ r, assemble tt lid dl c items = .ok r) ↔
        (∃ d, parse_date_era_str (rustTrim acc2.date_str) = .ok d)) := by
  intro tt lid dl c items acc2 hall
  unfold assemble
  simp only [hall]
  cases hp : parse_date_era_str (rustTrim acc2.date_str) with
  | error e => simp [hp]
  | ok d =>
    simp only [hp]
    exact ⟨fun _ => ⟨d, rfl⟩, fun _ => ⟨_, rfl⟩⟩

/-- Witness for C3 (amended): the date-only traversal emits a record. -/
theorem c3_witness :
    ∃ r, assemble .SupremeCourt (String.toList "id") (String.toList "lnk") none
      [⟨String.toList "裁判年月日", some (String.toList "令和3年5月1日"), none⟩] =
      .ok r :=
  (c3_no_final_validation .SupremeCourt (String.toList "id") (String.toList "lnk")
      none _ { initAcc with date_str := String.toList "令和3年5月1日" }
      (by decide)).mpr
    ⟨⟨.Reiwa, 3, some 5, some 1⟩, by decide⟩

/-! ### Claim C4 -/

/-- Counterexample to C4 as stated: with the anchor present but its `href`
attribute absent, dispatching "全文" ends in the `expect` panic (a crash
with the message "a属性はhrefを持っているはず"), not in a recoverable error
result. -/
theorem c4_cex :
    dispatchStep initAcc ⟨String.toList "全文", none, some none⟩ =
      .error (.panicked .expectHref) := by decide

/-- Claim C4 (corrected): an absent `href` on the full-text anchor makes the
dispatch panic (the `.expect` call) — it is not a silent skip, but neither
is it an error result; a present `href` stores the domain-prefixed link. -/
theorem c4_fulltext_href_absent_panics :
    (∀ (acc : RecordAcc) (dd : Option (List Char)),
      dispatchStep acc ⟨String.toList "全文", dd, some none⟩ =
        .error (.panicked .expectHref))
    ∧ (∀ (acc : RecordAcc) (dd : Option (List Char)) (link : List Char),
      dispatchStep acc ⟨String.toList "全文", dd, some (some link)⟩ =
        .ok { acc with full_pdf_link := courtsDomain ++ link }) :=
  ⟨fun _ _ => rfl, fun _ _ _ => rfl⟩

/-! ### Claim C7 -/

/-- The optional text-valued labels of the dispatch table (the arms that set
an `Option` slot only when the trimmed text is non-empty). -/
def optTextLabels : List (List Char) :=
  [String.toList "権利種別", String.toList "訴訟類型", String.toList "裁判種別",
   String.toList "結果", String.toList "判例集等巻・号・頁",
   String.toList "高裁判例集登載巻・号・頁", String.toList "原審裁判所名",
   String.toList "原審事件番号", String.toList "原審結果", String.toList "分野",
   String.toList "判示事項の要旨", String.toList "判示事項",
   String.toList "裁判要旨", String.toList "参照法条"]

/-- The optional slot an optional text-valued routing class writes to. -/
def optSlotOfKind : LabelKind → RecordAcc → Option (List Char)
  | .rightType, acc => acc.right_type
  | .lawsuitType, acc => acc.lawsuit_type
  | .resultType, acc => acc.result_type
  | .result, acc => acc.result
  | .articleInfo, acc => acc.article_info
  | .originalCourtName, acc => acc.original_court_name
  | .originalCaseNumber, acc => acc.original_case_number
  | .originalResult, acc => acc.original_result
  | .fieldLabel, acc => acc.field
  | .gist, acc => acc.gist
  | .caseGist, acc => acc.case_gist
  | .refLaw, acc => acc.ref_law
  | _, _ => none

/-- The optional slot a label routes to. -/
def optSlot (l : List Char) (acc : RecordAcc) : Option (List Char) :=
  optSlotOfKind (labelKind l) acc

theorem step_right_type (acc : RecordAcc) (t : List Char) (anc : Option (Option (List Char))) :
    dispatchStep acc ⟨String.toList "権利種別", some t, anc⟩ =
      .ok (if rustTrim t = [] then acc else { acc with right_type := some (rustTrim t) }) := rfl

theorem step_lawsuit_type (acc : RecordAcc) (t : List Char) (anc : Option (Option (List Char))) :
    dispatchStep acc ⟨String.toList "訴訟類型", some t, anc⟩ =
      .ok (if rustTrim t = [] then acc else { acc with lawsuit_type := some (rustTrim t) }) := rfl

theorem step_result_type (acc : RecordAcc) (t : List Char) (anc : Option (Option (List Char))) :
    dispatchStep acc ⟨String.toList "裁判種別", some t, anc⟩ =
      .ok (if rustTrim t = [] then acc else { acc with result_type := some (rustTrim t) }) := rfl

theorem step_result (acc : RecordAcc) (t : List Char) (anc : Option (Option (List Char))) :
    dispatchStep acc ⟨String.toList "結果", some t, anc⟩ =
      .ok (if rustTrim t = [] then acc else { acc with result := some (rustTrim t) }) := rfl

theorem step_article_info (acc : RecordAcc) (t : List Char) (anc : Option (Option (List Char))) :
    dispatchStep acc ⟨String.toList "判例集等巻・号・頁", some t, anc⟩ =
      .ok (if rustTrim t = [] then acc else { acc with article_info := some (rustTrim t) }) := rfl

theorem step_article_info_koosai (acc : RecordAcc) (t : List Char)
    (anc : Option (Option (List Char))) :
    dispatchStep acc ⟨String.toList "高裁判例集登載巻・号・頁", some t, anc⟩ =
      .ok (if rustTrim t = [] then acc else { acc with article_info := some (rustTrim t) }) := rfl

theorem step_original_court_name (acc : RecordAcc) (t : List Char)
    (anc : Option (Option (List Char))) :
    dispatchStep acc ⟨String.toList "原審裁判所名", some t, anc⟩ =
      .ok (if rustTrim t = [] then acc
        else { acc with original_court_name := some (rustTrim t) }) := rfl

theorem step_original_case_number (acc : RecordAcc) (t : List Char)
    (anc : Option (Option (List Char))) :
    dispatchStep acc ⟨String.toList "原審事件番号", some t, anc⟩ =
      .ok (if rustTrim t = [] then acc
        else { acc with original_case_number := some (rustTrim t) }) := rfl

theorem step_original_result (acc : RecordAcc) (t : List Char)
    (anc : Option (Option (List Char))) :
    dispatchStep acc ⟨String.toList "原審結果", some t, anc⟩ =
      .ok (if rustTrim t = [] then acc
        else { acc with original_result := some (rustTrim t) }) := rfl

theorem step_field (acc : RecordAcc) (t : List Char) (anc : Option (Option (List Char))) :
    dispatchStep acc ⟨String.toList "分野", some t, anc⟩ =
      .ok (if rustTrim t = [] then acc else { acc with field := some (rustTrim t) }) := rfl

theorem step_gist (acc : RecordAcc) (t : List Char) (anc : Option (Option (List Char))) :
    dispatchStep acc ⟨String.toList "判示事項の要旨", some t, anc⟩ =
      .ok (if rustTrim t = [] then acc else { acc with gist := some (rustTrim t) }) := rfl

theorem step_gist_short (acc : RecordAcc) (t : List Char) (anc : Option (Option (List Char))) :
    dispatchStep acc ⟨String.toList "判示事項", some t, anc⟩ =
      .ok (if rustTrim t = [] then acc else { acc with gist := some (rustTrim t) }) := rfl

theorem step_case_gist (acc : RecordAcc) (t : List Char) (anc : Option (Option (List Char))) :
    dispatchStep acc ⟨String.toList "裁判要旨", some t, anc⟩ =
      .ok (if rustTrim t = [] then acc else { acc with case_gist := some (rustTrim t) }) := rfl

theorem step_ref_law (acc : RecordAcc) (t : List Char) (anc : Option (Option (List Char))) :
    dispatchStep acc ⟨String.toList "参照法条", some t, anc⟩ =
      .ok (if rustTrim t = [] then acc else { acc with ref_law := some (rustTrim t) }) := rfl

/-- Claim C7 (confirmed): for every optional text-valued label, a value that
is empty after trimming leaves the accumulator — and hence the slot —
untouched (never `some ""`), while a non-empty-after-trim value sets the
label's slot to exactly the trimmed text. -/
theorem c7_empty_means_absent :
    ∀ l ∈ optTextLabels,
      ∀ (acc : RecordAcc) (t : List Char) (anc : Option (Option (List Char))),
        (rustTrim t = [] → dispatchStep acc ⟨l, some t, anc⟩ = .ok acc) ∧
        (rustTrim t ≠ [] → ∃ acc2, dispatchStep acc ⟨l, some t, anc⟩ = .ok acc2 ∧
          optSlot l acc2 = some (rustTrim t)) := by
  intro l hl acc t anc
  simp only [optTextLabels, List.mem_cons, List.not_mem_nil, or_false] at hl
  rcases hl with rfl | rfl | rfl | rfl | rfl | rfl | rfl | rfl | rfl | rfl | rfl | rfl | rfl | rfl
  · exact ⟨fun h => by rw [step_right_type, if_pos h],
      fun h => ⟨{ acc with right_type := some (rustTrim t) },
        by rw [step_right_type, if_neg h], rfl⟩⟩
  · exact ⟨fun h => by rw [step_lawsuit_type, if_pos h],
      fun h => ⟨{ acc with lawsuit_type := some (rustTrim t) },
        by rw [step_lawsuit_type, if_neg h], rfl⟩⟩
  · exact ⟨fun h => by rw [step_result_type, if_pos h],
      fun h => ⟨{ acc with result_type := some (rustTrim t) },
        by rw [step_result_type, if_neg h], rfl⟩⟩
  · exact ⟨fun h => by rw [step_result, if_pos h],
      fun h => ⟨{ acc with result := some (rustTrim t) },
        by rw [step_result, if_neg h], rfl⟩⟩
  · exact ⟨fun h => by rw [step_article_info, if_pos h],
      fun h => ⟨{ acc with article_info := some (rustTrim t) },
        by rw [step_article_info, if_neg h], rfl⟩⟩
  · exact ⟨fun h => by rw [step_article_info_koosai, if_pos h],
      fun h => ⟨{ acc with article_info := some (rustTrim t) },
        by rw [step_article_info_koosai, if_neg h], rfl⟩⟩
  · exact ⟨fun h => by rw [step_original_court_name, if_pos h],
      fun h => ⟨{ acc with original_court_name := some (rustTrim t) },
        by rw [step_original_court_name, if_neg h], rfl⟩⟩
  · exact ⟨fun h => by rw [step_original_case_number, if_pos h],
      fun h => ⟨{ acc with original_case_number := some (rustTrim t) },
        by rw [step_original_case_number, if_neg h], rfl⟩⟩
  · exact ⟨fun h => by rw [step_original_result, if_pos h],
      fun h => ⟨{ acc with original_result := some (rustTrim t) },
        by rw [step_original_result, if_neg h], rfl⟩⟩
  · exact ⟨fun h => by rw [step_field, if_pos h],
      fun h => ⟨{ acc with field := some (rustTrim t) },
        by rw [step_field, if_neg h], rfl⟩⟩
  · exact ⟨fun h => by rw [step_gist, if_pos h],
      fun h => ⟨{ acc with gist := some (rustTrim t) },
        by rw [step_gist, if_neg h], rfl⟩⟩
  · exact ⟨fun h => by rw [step_gist_short, if_pos h],
      fun h => ⟨{ acc with gist := some (rustTrim t) },
        by rw [step_gist_short, if_neg h], rfl⟩⟩
  · exact ⟨fun h => by rw [step_case_gist, if_pos h],
      fun h => ⟨{ acc with case_gist := some (rustTrim t) },
        by rw [step_case_gist, if_neg h], rfl⟩⟩
  · exact ⟨fun h => by rw [step_ref_law, if_pos h],
      fun h => ⟨{ acc with ref_law := some (rustTrim t) },
        by rw [step_ref_law, if_neg h], rfl⟩⟩

/-- Witness for C7: a whitespace-only value leaves the accumulator alone,
and a padded value stores exactly its trimmed text. -/
theorem c7_witness :
    dispatchStep initAcc ⟨String.toList "権利種別", some [' ', '\n'], none⟩ =
      .ok initAcc ∧
    ∃ acc2, dispatchStep initAcc
        ⟨String.toList "権利種別", some (String.toList " 著作権 "), none⟩ =
      .ok acc2 ∧ optSlot (String.toList "権利種別") acc2 =
        some (String.toList "著作権") := by
  constructor
  · exact (c7_empty_means_absent _ (by decide) initAcc [' ', '\n'] none).1 (by decide)
  · exact (c7_empty_means_absent _ (by decide) initAcc
      (String.toList " 著作権 ") none).2 (by decide)

/-! ### Claim C8 -/

/-- The three synonym labels that route to `court_name`. -/
def courtNameLabels : List (List Char) :=
  [String.toList "裁判所名", String.toList "裁判所名・部", String.toList "法廷名"]

/-- Claim C8 (confirmed): the labels "裁判所名", "裁判所名・部" and "法廷名"
all route to `court_name` with the same cleanup — trim followed by
line-break collapse — so the dispatch result is identical whichever of the
three spellings carries the value. -/
theorem c8_court_name_synonyms :
    ∀ l1 ∈ courtNameLabels, ∀ l2 ∈ courtNameLabels,
      ∀ (acc : RecordAcc) (t : List Char) (anc : Option (Option (List Char))),
        dispatchStep acc ⟨l1, some t, anc⟩ =
          .ok { acc with court_name := remove_line_break (rustTrim t) } ∧
        dispatchStep acc ⟨l1, some t, anc⟩ = dispatchStep acc ⟨l2, some t, anc⟩ := by
  intro l1 h1 l2 h2 acc t anc
  simp only [courtNameLabels, List.mem_cons, List.not_mem_nil, or_false] at h1 h2
  rcases h1 with rfl | rfl | rfl <;> rcases h2 with rfl | rfl | rfl <;> exact ⟨rfl, rfl⟩

/-- Witness for C8: the same multi-line court name dispatched under two of
the synonym spellings gives identical results. -/
theorem c8_witness :
    dispatchStep initAcc
      ⟨String.toList "裁判所名・部", some (String.toList "東京地方裁判所\n民事第1部"), none⟩ =
    dispatchStep initAcc
      ⟨String.toList "法廷名", some (String.toList "東京地方裁判所\n民事第1部"), none⟩ :=
  (c8_court_name_synonyms _ (by decide) _ (by decide) initAcc
    (String.toList "東京地方裁判所\n民事第1部") none).2

end Listup
